import Mathlib

/-!
Verification of the XML-to-page renderer in `generator.py`.

The source is a single-pass tree-to-markup transform: a registry of handler
classes keyed by tag name, a dispatch function `get_element_parser`, leaf
handlers turning trimmed text into visual primitives, a default container
handler laying children out in a column grid with placeholder padding, and
composite card handlers partitioning children into buckets by tag.

We embed the data model and each handler shallowly: Python `None` text becomes
`Option String`, exceptions become `Except String`, and the dash/bootstrap
component constructors become constructors of an opaque `RenderNode` tree.
-/

/-- An XML element as seen by the renderer: tag name, optional text content,
attribute mapping (association list, as `element.attrib`), ordered children. -/
structure Element where
  tag : String
  text : Option String
  attrib : List (String × String)
  children : List Element

/-- Output values produced by the handlers: one constructor per dash /
dash-bootstrap component constructor used by `generator.py`.
`Badge label href color`, `Button label outline href`, `Col width body`. -/
inductive RenderNode where
  | str : String → RenderNode
  | P : List RenderNode → RenderNode
  | H1 : List RenderNode → RenderNode
  | H3 : List RenderNode → RenderNode
  | Div : List RenderNode → RenderNode
  | Row : List RenderNode → RenderNode
  | Col : Option Nat → List RenderNode → RenderNode
  | Badge : String → Option String → Option String → RenderNode
  | Progress : Int → RenderNode
  | CardImg : String → RenderNode
  | Card : List RenderNode → RenderNode
  | CardHeader : List RenderNode → RenderNode
  | CardBody : List RenderNode → RenderNode
  | Hr : RenderNode
  | Button : String → Bool → Option String → RenderNode
  | ButtonGroup : List RenderNode → RenderNode

/-- The handler classes of `generator.py`, one constructor per class. -/
inductive ParserKind where
  | text | time | date | head | subhead | tag | current | link | image
  | phone | email | address | progress
  | job | merit | author | skill
  | jobGroup | meritGroup | skillGroup
  | default
deriving DecidableEq, Repr

/-- The `tag` class attribute of each handler class (`None` on
`DefaultParser`, a string on every registered handler). -/
def parserTag : ParserKind → Option String
  | .text => some "text"
  | .time => some "time"
  | .date => some "date"
  | .head => some "head"
  | .subhead => some "subhead"
  | .tag => some "tag"
  | .current => some "current"
  | .link => some "link"
  | .image => some "image"
  | .phone => some "number"
  | .email => some "email"
  | .address => some "address"
  | .progress => some "progress"
  | .job => some "job"
  | .merit => some "merit"
  | .author => some "author"
  | .skill => some "skill"
  | .jobGroup => some "jobs"
  | .meritGroup => some "merits"
  | .skillGroup => some "skills"
  | .default => none

/-- The `columns` class attribute: `1` on `DefaultParser`, overridden to
`2`, `3`, `4` by the group subclasses. -/
def parserColumns : ParserKind → Nat
  | .jobGroup => 2
  | .meritGroup => 3
  | .skillGroup => 4
  | _ => 1

/-- The URI-scheme `prefix` class attribute of the contact handler classes
(empty on `ContactParser` and `AddressParser`). -/
def contactScheme : ParserKind → String
  | .phone => "tel:"
  | .email => "mailto:"
  | _ => ""

/-- The `PARSERS` registry list, in its registration order. -/
def PARSERS : List ParserKind :=
  [.text, .time, .date, .head, .subhead, .tag, .current, .link, .image,
   .phone, .email, .address, .progress,
   .job, .merit, .author, .skill,
   .jobGroup, .meritGroup, .skillGroup,
   .default]

/-- `get_element_parser`: scan `PARSERS` in order, return the first handler
whose `tag` equals the element's tag, else `DefaultParser`. Python's
`None == element.tag` is false for every string tag, so comparing
`parserTag p` against `some e.tag` is the faithful translation. -/
def getElementParser (e : Element) : ParserKind :=
  match PARSERS.find? (fun p => parserTag p == some e.tag) with
  | some p => p
  | none => .default

/-- Python `str.strip()` with no argument: remove leading and trailing
whitespace characters. -/
def pyStrip (s : String) : String :=
  String.mk (((s.toList.dropWhile Char.isWhitespace).reverse.dropWhile
    Char.isWhitespace).reverse)

/-- Python `str.split(sep)` for a one-character separator, on a character
list: splitting keeps empty parts and an empty input yields one empty part. -/
def pySplitChars (sep : Char) : List Char → List (List Char)
  | [] => [[]]
  | c :: rest =>
      match pySplitChars sep rest with
      | [] => [[]]
      | h :: t => if c = sep then [] :: h :: t else (c :: h) :: t

/-- Python `str.split(sep)` for a one-character separator. -/
def pySplit (s : String) (sep : Char) : List String :=
  (pySplitChars sep s.toList).map (fun l => String.mk l)

/-- The numeric value of a non-empty all-digit character list. -/
def digitsVal (l : List Char) : Option Nat :=
  match l with
  | [] => none
  | _ =>
      l.foldl
        (fun acc c =>
          acc.bind (fun n =>
            if c.isDigit then some (n * 10 + (c.toNat - 48)) else none))
        (some 0)

/-- Python `int(str)` on already-stripped text: an optional sign followed by
at least one decimal digit, else a `ValueError`. -/
def pyInt (s : String) : Option Int :=
  match s.toList with
  | '-' :: ds => (digitsVal ds).map (fun n => -(n : Int))
  | '+' :: ds => (digitsVal ds).map (fun n => (n : Int))
  | ds => (digitsVal ds).map (fun n => (n : Int))

/-- `ContentParser.get_content`: `element.text.strip()`. When `text` is
`None`, Python raises `AttributeError`; we return an error. -/
def getContent (e : Element) : Except String String :=
  match e.text with
  | none => .error "AttributeError: NoneType object has no attribute strip"
  | some t => .ok (pyStrip t)

/-- Python `str.capitalize()`: first character upper-cased, the rest
lower-cased. -/
def pyCapitalize (s : String) : String :=
  match s.toList with
  | [] => ""
  | c :: rest => String.mk (c.toUpper :: rest.map Char.toLower)

/-- The filtering core of `get_elements_with_tag` after the argument has been
normalised to a list: keep the elements whose tag is in `tags`
(or, with `invert`, not in `tags`). -/
def filterByTags (elements : List Element) (tags : List String) (invert : Bool) : List Element :=
  if invert then elements.filter (fun e => !(tags.contains e.tag))
  else elements.filter (fun e => tags.contains e.tag)

/-- The dynamic type of the `tags` argument of `get_elements_with_tag`:
a single string, a list of strings, or any other Python value (carrying its
type name, only used in the error message). -/
inductive TagsArg where
  | single : String → TagsArg
  | many : List String → TagsArg
  | invalid : String → TagsArg
deriving DecidableEq, Repr

/-- `get_elements_with_tag`: raise `RuntimeError` unless the `tags` argument
is a string or a list; wrap a single string into a one-element list; filter
the children by tag membership, inverted when `invert` is set. -/
def getElementsWithTag (elements : List Element) (tags : TagsArg) (invert : Bool) :
    Except String (List Element) :=
  match tags with
  | .invalid tyName =>
      .error ("Cant get elements with type " ++ tyName)
  | .single t => .ok (filterByTags elements [t] invert)
  | .many ts => .ok (filterByTags elements ts invert)

/-- The tag set of the heading-like card bucket. -/
def cardHeadTags : List String := ["head", "subhead"]

/-- The tag set of the date-like card bucket. -/
def cardDateTags : List String := ["date", "time", "current"]

/-- `missing_elements` in `DefaultParser.parse`: `cols - (len(content) % cols)`. -/
def paddingCount (cols n : Nat) : Nat := cols - n % cols

/-- The rendered-children list after the padding loop of
`DefaultParser.parse`: the original list followed by `missing_elements`
empty `html.P()` placeholders. -/
def paddedContent (cols : Nat) (content : List RenderNode) : List RenderNode :=
  content ++ List.replicate (paddingCount cols content.length) (.P [])

/-- The row-building loop of `DefaultParser.parse`: chunk the padded list
into rows of `cols` columns, each row followed by an `html.P()` spacer.
In the source `cols` is a class constant in `{1, 2, 3, 4}`; a zero value
would raise in Python, here it yields no rows. The recursion is driven by an
explicit fuel so that it is structural and evaluates in the kernel. -/
def buildRowsFuel : Nat → Nat → List RenderNode → List RenderNode
  | _, _, [] => []
  | _, 0, _ => []
  | 0, _, _ => []
  | fuel + 1, k + 1, x :: rest =>
      .Row (((x :: rest).take (k + 1)).map (fun j => .Col none [j])) :: .P [] ::
        buildRowsFuel fuel (k + 1) ((x :: rest).drop (k + 1))

/-- The row-building loop, entered with enough fuel for every step: each
step consumes at least one list element and one unit of fuel. -/
def buildRows (cols : Nat) (content : List RenderNode) : List RenderNode :=
  buildRowsFuel content.length cols content

/-- The tail of `DefaultParser.parse` after the children have been rendered:
pad, optionally prepend the `heading` attribute as an `html.H1`, chunk into
rows, wrap in an `html.Div`. -/
def defaultParse (cols : Nat) (attrib : List (String × String)) (content : List RenderNode) :
    RenderNode :=
  let padded := paddedContent cols content
  let heading : List RenderNode :=
    match attrib.lookup "heading" with
    | some h => [.H1 [.str h]]
    | none => []
  .Div (heading ++ buildRows cols padded)

/-- A filtered list weighs no more than the original list. -/
theorem sizeOf_filter_le (p : Element → Bool) (l : List Element) :
    sizeOf (l.filter p) ≤ sizeOf l := by
  induction l with
  | nil => simp
  | cons a l ih =>
      rw [List.filter_cons]
      cases h : p a
      · simp only [h, Bool.false_eq_true, if_false]
        have hs := List.cons.sizeOf_spec a l
        omega
      · simp only [h, if_true, List.cons.sizeOf_spec]
        omega

/-- The tag-filtered child list weighs no more than the child list. -/
theorem sizeOf_filterByTags_le (l : List Element) (ts : List String) (inv : Bool) :
    sizeOf (filterByTags l ts inv) ≤ sizeOf l := by
  unfold filterByTags
  by_cases h : inv <;> simp [h, sizeOf_filter_le]

/-- The child list of an element weighs less than the element. -/
theorem sizeOf_children_lt (e : Element) : sizeOf e.children < sizeOf e := by
  cases e with
  | mk t x a c =>
      show sizeOf c < sizeOf (Element.mk t x a c)
      have hs := Element.mk.sizeOf_spec t x a c
      omega

/-- `ContactParser.parse` shared by the phone/email/address subclasses:
a label button from the capitalised tag and a value button from the trimmed
text, the value button linking `prefix + content` when the class has a
non-empty URI scheme. -/
def contactParse (k : ParserKind) (e : Element) : Except String RenderNode := do
  let content ← getContent e
  let href : Option String :=
    if contactScheme k ≠ "" then some (contactScheme k ++ content) else none
  return .P [.ButtonGroup
    [.Button (pyCapitalize e.tag) false none,
     .Button content true href]]

mutual

/-- `parse_element`: select the handler for the element's tag and run its
`parse` method. -/
def parseElement (e : Element) : Except String RenderNode :=
  runParser (getElementParser e) e
termination_by (sizeOf e, 2)

/-- The `parse` method of each handler class, dispatched on the class. Each
branch is the direct translation of the corresponding class in
`generator.py`. -/
def runParser (k : ParserKind) (e : Element) : Except String RenderNode :=
  match k with
  | .text => do
      let c ← getContent e
      return .P [.str c]
  | .time => do
      let c ← getContent e
      return .P [.str c]
  | .date => do
      let c ← getContent e
      return .P [.str c]
  | .head => do
      let c ← getContent e
      return .H1 [.str c]
  | .subhead => do
      let c ← getContent e
      return .H3 [.str c]
  | .tag => do
      let c ← getContent e
      return .Badge c none none
  | .current =>
      .ok (.Badge "Current Position" none (some "success"))
  | .link => do
      let c ← getContent e
      match pySplit c ';' with
      | p0 :: p1 :: _ =>
          return .Badge (pyStrip p0) (some (pyStrip p1)) (some "primary")
      | _ => .error "IndexError: list index out of range"
  | .image => do
      let c ← getContent e
      return .Card [.CardImg c]
  | .progress => do
      let c ← getContent e
      match pyInt c with
      | some n => return .Progress n
      | none => .error "ValueError: invalid literal for int"
  | .phone => contactParse .phone e
  | .email => contactParse .email e
  | .address => contactParse .address e
  | .job => niceCardParse e
  | .merit => niceCardParse e
  | .skill => niceCardParse e
  | .author => do
      let cardHead ← parseChildren (filterByTags e.children cardHeadTags false)
      let cardImage ← parseChildren (filterByTags e.children ["image"] false)
      let cardContact ← parseChildren (filterByTags e.children ["address", "email", "number"] false)
      let cardBody ← parseChildren (filterByTags e.children ["text"] false)
      return .Card [.Row
        [.Col (some 4) cardImage,
         .Col none (cardHead ++
           [.Hr, .Row [.Col none cardBody, .Col none cardContact]])]]
  | .jobGroup => do
      let content ← parseChildren e.children
      return defaultParse (parserColumns .jobGroup) e.attrib content
  | .meritGroup => do
      let content ← parseChildren e.children
      return defaultParse (parserColumns .meritGroup) e.attrib content
  | .skillGroup => do
      let content ← parseChildren e.children
      return defaultParse (parserColumns .skillGroup) e.attrib content
  | .default => do
      let content ← parseChildren e.children
      return defaultParse (parserColumns .default) e.attrib content
termination_by (sizeOf e, 1)
decreasing_by
  all_goals simp_wf
  all_goals first
    | exact Prod.Lex.right (sizeOf e) Nat.zero_lt_one
    | (apply Prod.Lex.left
       first
        | exact lt_of_le_of_lt (sizeOf_filterByTags_le _ _ _) (sizeOf_children_lt e)
        | exact sizeOf_children_lt e)

/-- `NiceCard.parse` shared by the job/merit/skill subclasses: partition the
children into heading-like, date-like and remaining buckets, append a
separator to the date bucket when it is non-empty, and assemble the card. -/
def niceCardParse (e : Element) : Except String RenderNode := do
  let cardHead ← parseChildren (filterByTags e.children cardHeadTags false)
  let cardDate ← parseChildren (filterByTags e.children cardDateTags false)
  let cardBody ← parseChildren (filterByTags e.children (cardHeadTags ++ cardDateTags) true)
  let cardDate := if cardDate.isEmpty then cardDate else cardDate ++ [.Hr]
  return .Card [.CardHeader cardHead, .CardBody (cardDate ++ cardBody)]
termination_by (sizeOf e, 0)
decreasing_by
  all_goals simp_wf
  all_goals apply Prod.Lex.left
  all_goals exact lt_of_le_of_lt (sizeOf_filterByTags_le _ _ _) (sizeOf_children_lt e)

/-- `parse_elements_with_tag` specialised to an already-filtered list:
render each element of the list in order. -/
def parseChildren (l : List Element) : Except String (List RenderNode) :=
  match l with
  | [] => .ok []
  | c :: rest => do
      let r ← parseElement c
      let rs ← parseChildren rest
      return r :: rs
termination_by (sizeOf l, 0)
decreasing_by
  all_goals simp_wf
  all_goals apply Prod.Lex.left
  all_goals (try simp only [List.cons.sizeOf_spec])
  all_goals omega

end

/-- The widths (number of `Col` entries) of the layout rows of a rendered
container node, in order. -/
def rowWidths : RenderNode → List Nat
  | .Div rows =>
      rows.filterMap (fun r =>
        match r with
        | .Row cols => some cols.length
        | _ => none)
  | _ => []

/-- Modelled from the spec: the column count the spec claims the container
handlers use — an explicit `columns` attribute override when present, else
the per-tag default. The source never reads such an attribute; this
definition only states the spec's claimed behaviour for comparison. -/
def specColumnsUsed (e : Element) : Nat :=
  match e.attrib.lookup "columns" with
  | some v => ((pyInt v).map Int.toNat).getD (parserColumns (getElementParser e))
  | none => parserColumns (getElementParser e)

/-- Rendering an empty element list yields the empty output list. -/
theorem parseChildren_nil : parseChildren [] = .ok [] := by
  rw [parseChildren]

/-- Rendering a non-empty element list renders the head, then the tail. -/
theorem parseChildren_cons (c : Element) (rest : List Element) :
    parseChildren (c :: rest) =
      (do
        let r ← parseElement c
        let rs ← parseChildren rest
        pure (r :: rs)) := by
  rw [parseChildren]

/-- Claim C3: handler selection scans the registry in registration order,
returns the first handler whose declared tag equals the element's tag, falls
back to the Default handler when no registered tag matches (never failing),
and depends only on the element's tag, never on its text or attributes. -/
theorem claim3_handler_selection (e e' : Element) (h : e.tag = e'.tag) :
    getElementParser e = getElementParser e' ∧
    getElementParser e =
      (PARSERS.find? (fun p => parserTag p == some e.tag)).getD .default ∧
    (∀ p, PARSERS.find? (fun q => parserTag q == some e.tag) = some p →
      p ∈ PARSERS ∧ parserTag p = some e.tag) ∧
    ((∀ p ∈ PARSERS, parserTag p ≠ some e.tag) → getElementParser e = .default) := by
  refine ⟨?_, ?_, ?_, ?_⟩
  · unfold getElementParser
    rw [h]
  · unfold getElementParser
    cases hf : PARSERS.find? (fun p => parserTag p == some e.tag) <;> simp [hf]
  · intro p hp
    refine ⟨List.mem_of_find?_eq_some hp, ?_⟩
    have := List.find?_some hp
    exact eq_of_beq this
  · intro hall
    unfold getElementParser
    rw [List.find?_eq_none.mpr (fun p hp => by simpa using hall p hp)]

/-- Witness for C3: an unregistered tag selects the Default handler. -/
theorem claim3_witness : getElementParser ⟨"mystery", some "t", [], []⟩ = .default :=
  (claim3_handler_selection ⟨"mystery", some "t", [], []⟩ ⟨"mystery", none, [], []⟩
    rfl).2.2.2 (by decide)

/-- Claim C8: the child tag-filter rejects a `tags` argument that is neither
a string nor a list with a usage error; for a string or list argument it
returns exactly the sub-list of children whose tag is in (or, inverted, not
in) the tag set. -/
theorem claim8_tag_filter (elements : List Element) (inv : Bool) :
    (∀ tyName, ∃ msg, getElementsWithTag elements (.invalid tyName) inv = .error msg) ∧
    (∀ t, ∃ l, getElementsWithTag elements (.single t) inv = .ok l ∧
      l.Sublist elements ∧
      ∀ x, x ∈ l ↔ x ∈ elements ∧ (x.tag ∈ ([t] : List String) ↔ inv = false)) ∧
    (∀ ts, ∃ l, getElementsWithTag elements (.many ts) inv = .ok l ∧
      l.Sublist elements ∧
      ∀ x, x ∈ l ↔ x ∈ elements ∧ (x.tag ∈ ts ↔ inv = false)) := by
  refine ⟨fun tyName => ⟨_, rfl⟩, fun t => ⟨_, rfl, ?_, ?_⟩, fun ts => ⟨_, rfl, ?_, ?_⟩⟩
  all_goals cases inv
  all_goals simp [filterByTags, List.mem_filter]
  all_goals apply List.filter_sublist

/-- Claim C10 (implicit): the Default-family handlers always append between
1 and C placeholders; when the child count is 0 or an exact multiple of C a
full extra row of C placeholders is appended, as the four concrete empty
containers (columns 2, 3, 4 and 1) show. -/
theorem claim10_padding_always (cols n : Nat) (h : 0 < cols) :
    (1 ≤ paddingCount cols n ∧ paddingCount cols n ≤ cols ∧
      (cols ∣ n → paddingCount cols n = cols)) ∧
    parseElement ⟨"jobs", none, [], []⟩ =
      .ok (.Div [.Row [.Col none [.P []], .Col none [.P []]], .P []]) ∧
    parseElement ⟨"merits", none, [], []⟩ =
      .ok (.Div [.Row [.Col none [.P []], .Col none [.P []], .Col none [.P []]], .P []]) ∧
    parseElement ⟨"skills", none, [], []⟩ =
      .ok (.Div [.Row [.Col none [.P []], .Col none [.P []], .Col none [.P []],
        .Col none [.P []]], .P []]) ∧
    parseElement ⟨"unregistered", none, [], []⟩ =
      .ok (.Div [.Row [.Col none [.P []]], .P []]) := by
  refine ⟨⟨?_, ?_, ?_⟩, ?_, ?_, ?_, ?_⟩
  · have hm : n % cols < cols := Nat.mod_lt _ h
    unfold paddingCount
    omega
  · unfold paddingCount
    omega
  · intro hdvd
    have hm : n % cols = 0 := Nat.mod_eq_zero_of_dvd hdvd
    unfold paddingCount
    omega
  · rw [parseElement, show getElementParser ⟨"jobs", none, [], []⟩ = .jobGroup from rfl,
      runParser, parseChildren_nil]
    rfl
  · rw [parseElement, show getElementParser ⟨"merits", none, [], []⟩ = .meritGroup from rfl,
      runParser, parseChildren_nil]
    rfl
  · rw [parseElement, show getElementParser ⟨"skills", none, [], []⟩ = .skillGroup from rfl,
      runParser, parseChildren_nil]
    rfl
  · rw [parseElement, show getElementParser ⟨"unregistered", none, [], []⟩ = .default from rfl,
      runParser, parseChildren_nil]
    rfl

/-- Witness for C10: the padding bounds instantiated at column count 2 and
child count 0. -/
theorem claim10_witness : 1 ≤ paddingCount 2 0 ∧ paddingCount 2 0 ≤ 2 ∧
    (2 ∣ 0 → paddingCount 2 0 = 2) :=
  (claim10_padding_always 2 0 (by decide)).1

/-- Claim C1 counterexample: on a container with 2 children and column
width 2, the code appends `paddingCount 2 2 = 2` placeholders while the
spec's formula `(C - N mod C) mod C` gives 0; the rendered `jobs` container
gains a whole extra row of two placeholders. -/
theorem claim1_counterexample :
    paddingCount 2 2 ≠ (2 - 2 % 2) % 2 ∧
    parseElement ⟨"jobs", none, [],
      [⟨"text", some "a", [], []⟩, ⟨"text", some "b", [], []⟩]⟩ =
      .ok (.Div
        [.Row [.Col none [.P [.str "a"]], .Col none [.P [.str "b"]]], .P [],
         .Row [.Col none [.P []], .Col none [.P []]], .P []]) := by
  constructor
  · decide
  · rw [parseElement,
      show getElementParser ⟨"jobs", none, [],
        [⟨"text", some "a", [], []⟩, ⟨"text", some "b", [], []⟩]⟩ = .jobGroup from rfl,
      runParser, parseChildren_cons, parseChildren_cons, parseChildren_nil,
      parseElement, parseElement,
      show getElementParser ⟨"text", some "a", [], []⟩ = .text from rfl,
      show getElementParser ⟨"text", some "b", [], []⟩ = .text from rfl,
      runParser, runParser]
    rfl

/-- Claim C1 (amended): the container handlers append
`C - (N mod C)` placeholders — without the outer `mod C`, so a full extra
row appears when `N mod C = 0` — and the padded total is always a multiple
of `C`. -/
theorem claim1_amended_padding (cols : Nat) (content : List RenderNode) (h : 0 < cols) :
    (paddedContent cols content).length
      = content.length + paddingCount cols content.length ∧
    cols ∣ (paddedContent cols content).length := by
  constructor
  · simp [paddedContent]
  · refine ⟨content.length / cols + 1, ?_⟩
    have hlen : (paddedContent cols content).length
        = content.length + (cols - content.length % cols) := by
      simp [paddedContent, paddingCount]
    rw [hlen, Nat.mul_add, Nat.mul_one]
    have hdm := Nat.div_add_mod content.length cols
    have hm : content.length % cols < cols := Nat.mod_lt _ h
    generalize content.length / cols = q at *
    generalize hr : content.length % cols = r at *
    generalize hcq : cols * q = m at *
    omega

/-- Witness for the amended C1 at column width 2 and one rendered child. -/
theorem claim1_amended_witness :
    (paddedContent 2 [.P []]).length = 1 + paddingCount 2 1 ∧
    2 ∣ (paddedContent 2 [.P []]).length :=
  claim1_amended_padding 2 [.P []] (by decide)

/-- Claim C2 counterexample: a `jobs` container carrying an explicit
`columns="5"` attribute and five children is laid out in rows of width 2
(the per-tag default), not in rows of the claimed overriding width 5. -/
theorem claim2_counterexample :
    specColumnsUsed ⟨"jobs", none, [("columns", "5")],
      [⟨"text", some "x", [], []⟩, ⟨"text", some "x", [], []⟩, ⟨"text", some "x", [], []⟩,
       ⟨"text", some "x", [], []⟩, ⟨"text", some "x", [], []⟩]⟩ = 5 ∧
    Except.map rowWidths (parseElement ⟨"jobs", none, [("columns", "5")],
      [⟨"text", some "x", [], []⟩, ⟨"text", some "x", [], []⟩, ⟨"text", some "x", [], []⟩,
       ⟨"text", some "x", [], []⟩, ⟨"text", some "x", [], []⟩]⟩) = .ok [2, 2, 2] ∧
    ([2, 2, 2] : List Nat) ≠ [5] ∧ ([2, 2, 2] : List Nat) ≠ [5, 5, 5] := by
  refine ⟨by decide, ?_, by decide, by decide⟩
  rw [parseElement,
    show getElementParser ⟨"jobs", none, [("columns", "5")],
      [⟨"text", some "x", [], []⟩, ⟨"text", some "x", [], []⟩, ⟨"text", some "x", [], []⟩,
       ⟨"text", some "x", [], []⟩, ⟨"text", some "x", [], []⟩]⟩ = .jobGroup from rfl,
    runParser, parseChildren_cons, parseChildren_cons, parseChildren_cons,
    parseChildren_cons, parseChildren_cons, parseChildren_nil, parseElement,
    show getElementParser ⟨"text", some "x", [], []⟩ = .text from rfl, runParser]
  rfl

/-- Claim C2 (amended): no attribute-level column override exists — the
column count used for layout is always the per-tag class default, and adding
a `columns` attribute to any element leaves the rendered output unchanged. -/
theorem claim2_amended (e : Element) (v : String) :
    parseElement ⟨e.tag, e.text, ("columns", v) :: e.attrib, e.children⟩ = parseElement e := by
  rw [parseElement, parseElement]
  have hk : getElementParser ⟨e.tag, e.text, ("columns", v) :: e.attrib, e.children⟩
      = getElementParser e := rfl
  rw [hk]
  cases hke : getElementParser e
  all_goals rw [runParser, runParser]
  all_goals try rw [niceCardParse, niceCardParse]
  all_goals rfl

/-- Witness for the amended C2: a columns attribute on an empty skills
container changes nothing. -/
theorem claim2_amended_witness :
    parseElement ⟨"skills", none, [("columns", "7")], []⟩ =
      parseElement ⟨"skills", none, [], []⟩ :=
  claim2_amended ⟨"skills", none, [], []⟩ "7"

/-- Handler selection only reads the tag: an element dispatches exactly as
a bare element with the same tag does. -/
theorem getElementParser_congr (e : Element) (t : String) (h : e.tag = t) :
    getElementParser e = getElementParser ⟨t, none, [], []⟩ := by
  unfold getElementParser
  rw [h]

/-- The link handler's result as a function of the split trimmed text. -/
theorem parseElement_link_eq (e : Element) (t : String) (htag : e.tag = "link")
    (htext : e.text = some t) :
    parseElement e =
      (match pySplit (pyStrip t) ';' with
       | p0 :: p1 :: _ => .ok (.Badge (pyStrip p0) (some (pyStrip p1)) (some "primary"))
       | _ => .error "IndexError: list index out of range") := by
  have hc : getContent e = .ok (pyStrip t) := by
    unfold getContent
    rw [htext]
  rw [parseElement, getElementParser_congr e "link" htag,
    (by decide : getElementParser ⟨"link", none, [], []⟩ = ParserKind.link),
    runParser, hc]
  rfl

/-- Claim C4: a link element whose trimmed text splits on the semicolon into
a label part and a link part renders as an external badge with the trimmed
label and the trimmed href; a link element whose trimmed text has no
semicolon fails with an index error. -/
theorem claim4_link (e : Element) (t : String) (htag : e.tag = "link")
    (htext : e.text = some t) :
    (∀ p0 p1 rest, pySplit (pyStrip t) ';' = p0 :: p1 :: rest →
      parseElement e = .ok (.Badge (pyStrip p0) (some (pyStrip p1)) (some "primary"))) ∧
    (∀ p, pySplit (pyStrip t) ';' = [p] →
      parseElement e = .error "IndexError: list index out of range") := by
  constructor
  · intro p0 p1 rest hs
    rw [parseElement_link_eq e t htag htext, hs]
  · intro p hs
    rw [parseElement_link_eq e t htag htext, hs]

/-- Witness for C4: the two inputs named by the spec. -/
theorem claim4_witness :
    parseElement ⟨"link", some "Example;https://example.com", [], []⟩ =
      .ok (.Badge "Example" (some "https://example.com") (some "primary")) ∧
    parseElement ⟨"link", some "NoSeparator", [], []⟩ =
      .error "IndexError: list index out of range" := by
  constructor
  · exact (claim4_link ⟨"link", some "Example;https://example.com", [], []⟩
      "Example;https://example.com" rfl rfl).1
      "Example" "https://example.com" [] (by decide)
  · exact (claim4_link ⟨"link", some "NoSeparator", [], []⟩
      "NoSeparator" rfl rfl).2 "NoSeparator" (by decide)

/-- Splitting a list through two mutually exclusive filters and the filter
of everything passing neither is a permutation of the list. -/
theorem filter_three_way_perm (p q : Element → Bool) (l : List Element)
    (h : ∀ x, p x = true → q x = true → False) :
    List.Perm (l.filter p ++ l.filter q ++ l.filter (fun x => !(p x || q x))) l := by
  induction l with
  | nil => simp
  | cons a t ih =>
      simp only [List.filter_cons]
      cases hp : p a
      · cases hq : q a
        · simp only [hp, hq, Bool.false_or, Bool.not_false, Bool.false_eq_true,
            if_false, if_true]
          exact List.perm_middle.trans (ih.cons a)
        · simp only [hp, hq, Bool.false_or, Bool.not_true, Bool.false_eq_true,
            if_false, if_true]
          exact ((List.perm_middle).append_right _).trans (ih.cons a)
      · cases hq : q a
        · simp only [hp, hq, Bool.true_or, Bool.not_true, Bool.false_eq_true,
            if_false, if_true]
          exact ih.cons a
        · exact (h a hp hq).elim

/-- Claim C5: the three child buckets that the card handler builds —
heading-like, date-like, and everything else — are pairwise disjoint and
together are exactly the element's child list. -/
theorem claim5_card_partition (e : Element)
    (htag : e.tag = "job" ∨ e.tag = "merit" ∨ e.tag = "skill") :
    List.Perm
      (filterByTags e.children cardHeadTags false ++
        filterByTags e.children cardDateTags false ++
        filterByTags e.children (cardHeadTags ++ cardDateTags) true)
      e.children ∧
    (∀ x ∈ filterByTags e.children cardHeadTags false,
      x ∉ filterByTags e.children cardDateTags false ∧
      x ∉ filterByTags e.children (cardHeadTags ++ cardDateTags) true) ∧
    (∀ x ∈ filterByTags e.children cardDateTags false,
      x ∉ filterByTags e.children (cardHeadTags ++ cardDateTags) true) := by
  have hexcl : ∀ x : Element, cardHeadTags.contains x.tag = true →
      cardDateTags.contains x.tag = true → False := by
    intro x h1 h2
    simp [cardHeadTags, cardDateTags] at h1 h2
    rcases h1 with h1 | h1 <;> rcases h2 with h2 | h2 | h2 <;> rw [h1] at h2 <;>
      exact absurd h2 (by decide)
  have hA : filterByTags e.children cardHeadTags false
      = e.children.filter (fun x => cardHeadTags.contains x.tag) := rfl
  have hB : filterByTags e.children cardDateTags false
      = e.children.filter (fun x => cardDateTags.contains x.tag) := rfl
  have hC : filterByTags e.children (cardHeadTags ++ cardDateTags) true
      = e.children.filter
          (fun x => !(cardHeadTags.contains x.tag || cardDateTags.contains x.tag)) := by
    show e.children.filter (fun x => !((cardHeadTags ++ cardDateTags).contains x.tag)) = _
    congr 1
    funext x
    congr 1
    simp
  refine ⟨?_, ?_, ?_⟩
  · rw [hA, hB, hC]
    exact filter_three_way_perm _ _ e.children hexcl
  · intro x hx
    rw [hA] at hx
    rw [hB, hC]
    have hx2 := (List.mem_filter.mp hx).2
    constructor
    · intro hy
      exact hexcl x hx2 (List.mem_filter.mp hy).2
    · intro hy
      have hy2 := (List.mem_filter.mp hy).2
      rw [hx2] at hy2
      simp at hy2
  · intro x hx
    rw [hB] at hx
    rw [hC]
    intro hy
    have hx2 := (List.mem_filter.mp hx).2
    have hy2 := (List.mem_filter.mp hy).2
    rw [hx2] at hy2
    simp at hy2

/-- Witness for C5: the partition of a concrete job element's children. -/
theorem claim5_witness :
    List.Perm
      (filterByTags [⟨"head", some "H", [], []⟩, ⟨"date", some "D", [], []⟩,
          ⟨"text", some "T", [], []⟩] cardHeadTags false ++
        filterByTags [⟨"head", some "H", [], []⟩, ⟨"date", some "D", [], []⟩,
          ⟨"text", some "T", [], []⟩] cardDateTags false ++
        filterByTags [⟨"head", some "H", [], []⟩, ⟨"date", some "D", [], []⟩,
          ⟨"text", some "T", [], []⟩] (cardHeadTags ++ cardDateTags) true)
      [⟨"head", some "H", [], []⟩, ⟨"date", some "D", [], []⟩,
        ⟨"text", some "T", [], []⟩] :=
  (claim5_card_partition ⟨"job", none, [],
    [⟨"head", some "H", [], []⟩, ⟨"date", some "D", [], []⟩,
     ⟨"text", some "T", [], []⟩]⟩ (Or.inl rfl)).1

/-- A successful render of an element list yields one output per element. -/
theorem parseChildren_ok_length (l : List Element) (r : List RenderNode)
    (h : parseChildren l = .ok r) : r.length = l.length := by
  induction l generalizing r with
  | nil =>
      rw [parseChildren_nil] at h
      cases h
      rfl
  | cons c t ih =>
      rw [parseChildren_cons] at h
      cases hc : parseElement c with
      | error m =>
          rw [hc] at h
          simp [Bind.bind, Except.bind] at h
      | ok v =>
          rw [hc] at h
          cases ht : parseChildren t with
          | error m =>
              rw [ht] at h
              simp [Bind.bind, Except.bind] at h
          | ok vs =>
              rw [ht] at h
              simp only [Bind.bind, Except.bind, pure, Except.pure, Except.ok.injEq] at h
              rw [← h]
              simp [ih vs ht]

/-- Claim C6: a card-composite element renders as a card whose header holds
the rendered heading-like children and whose body holds the rendered
date-like children, a separator exactly when the date-like bucket is
non-empty, then the rendered remaining children. -/
theorem claim6_card_layout (e : Element)
    (htag : e.tag = "job" ∨ e.tag = "merit" ∨ e.tag = "skill")
    (hd dt bd : List RenderNode)
    (hhd : parseChildren (filterByTags e.children cardHeadTags false) = .ok hd)
    (hdt : parseChildren (filterByTags e.children cardDateTags false) = .ok dt)
    (hbd : parseChildren (filterByTags e.children (cardHeadTags ++ cardDateTags) true)
      = .ok bd) :
    parseElement e = .ok (.Card [.CardHeader hd,
      .CardBody ((if dt.isEmpty then dt else dt ++ [.Hr]) ++ bd)]) ∧
    (dt.isEmpty = true ↔ filterByTags e.children cardDateTags false = []) := by
  have hcard : parseElement e = niceCardParse e := by
    rcases htag with h | h | h
    · rw [parseElement, getElementParser_congr e "job" h,
        (by decide : getElementParser ⟨"job", none, [], []⟩ = ParserKind.job), runParser]
    · rw [parseElement, getElementParser_congr e "merit" h,
        (by decide : getElementParser ⟨"merit", none, [], []⟩ = ParserKind.merit), runParser]
    · rw [parseElement, getElementParser_congr e "skill" h,
        (by decide : getElementParser ⟨"skill", none, [], []⟩ = ParserKind.skill), runParser]
  constructor
  · rw [hcard, niceCardParse, hhd, hdt, hbd]
    rfl
  · have hlen := parseChildren_ok_length _ _ hdt
    constructor
    · intro hemp
      have hdtnil : dt = [] := List.isEmpty_iff.mp hemp
      rw [hdtnil] at hlen
      exact List.length_eq_zero.mp hlen.symm
    · intro hnil
      rw [hnil] at hlen
      simp at hlen
      exact List.isEmpty_iff.mpr hlen

/-- Witness for C6: a concrete job card with one heading, one date and one
body child renders with the header, the date, a separator, then the body. -/
theorem claim6_witness :
    parseElement ⟨"job", none, [], [⟨"head", some "H", [], []⟩,
      ⟨"date", some "D", [], []⟩, ⟨"text", some "T", [], []⟩]⟩ =
      .ok (.Card [.CardHeader [.H1 [.str "H"]],
        .CardBody [.P [.str "D"], .Hr, .P [.str "T"]]]) := by
  exact (claim6_card_layout ⟨"job", none, [], [⟨"head", some "H", [], []⟩,
      ⟨"date", some "D", [], []⟩, ⟨"text", some "T", [], []⟩]⟩ (Or.inl rfl)
    [.H1 [.str "H"]] [.P [.str "D"]] [.P [.str "T"]]
    (by
      rw [show filterByTags [⟨"head", some "H", [], []⟩, ⟨"date", some "D", [], []⟩,
            ⟨"text", some "T", [], []⟩] cardHeadTags false
          = [⟨"head", some "H", [], []⟩] from rfl,
        parseChildren_cons, parseChildren_nil, parseElement,
        show getElementParser ⟨"head", some "H", [], []⟩ = .head from rfl, runParser]
      rfl)
    (by
      rw [show filterByTags [⟨"head", some "H", [], []⟩, ⟨"date", some "D", [], []⟩,
            ⟨"text", some "T", [], []⟩] cardDateTags false
          = [⟨"date", some "D", [], []⟩] from rfl,
        parseChildren_cons, parseChildren_nil, parseElement,
        show getElementParser ⟨"date", some "D", [], []⟩ = .date from rfl, runParser]
      rfl)
    (by
      rw [show filterByTags [⟨"head", some "H", [], []⟩, ⟨"date", some "D", [], []⟩,
            ⟨"text", some "T", [], []⟩] (cardHeadTags ++ cardDateTags) true
          = [⟨"text", some "T", [], []⟩] from rfl,
        parseChildren_cons, parseChildren_nil, parseElement,
        show getElementParser ⟨"text", some "T", [], []⟩ = .text from rfl, runParser]
      rfl)).1

/-- Claim C7: a contact element renders as a two-button group — a label
button from the capitalised tag and a value button with the trimmed text;
for tag number the value button links tel plus the text, for tag email it
links mailto plus the text, and for tag address it carries no link. -/
theorem claim7_contact (e : Element) (t : String) (htext : e.text = some t) :
    (e.tag = "number" → parseElement e = .ok (.P [.ButtonGroup
      [.Button (pyCapitalize "number") false none,
       .Button (pyStrip t) true (some ("tel:" ++ pyStrip t))]])) ∧
    (e.tag = "email" → parseElement e = .ok (.P [.ButtonGroup
      [.Button (pyCapitalize "email") false none,
       .Button (pyStrip t) true (some ("mailto:" ++ pyStrip t))]])) ∧
    (e.tag = "address" → parseElement e = .ok (.P [.ButtonGroup
      [.Button (pyCapitalize "address") false none,
       .Button (pyStrip t) true none]])) := by
  have hc : getContent e = .ok (pyStrip t) := by
    unfold getContent
    rw [htext]
  refine ⟨?_, ?_, ?_⟩
  · intro htag
    rw [parseElement, getElementParser_congr e "number" htag,
      (by decide : getElementParser ⟨"number", none, [], []⟩ = ParserKind.phone),
      runParser, contactParse, hc, htag]
    rfl
  · intro htag
    rw [parseElement, getElementParser_congr e "email" htag,
      (by decide : getElementParser ⟨"email", none, [], []⟩ = ParserKind.email),
      runParser, contactParse, hc, htag]
    rfl
  · intro htag
    rw [parseElement, getElementParser_congr e "address" htag,
      (by decide : getElementParser ⟨"address", none, [], []⟩ = ParserKind.address),
      runParser, contactParse, hc, htag]
    rfl

/-- Witness for C7: the three contact kinds on concrete elements. -/
theorem claim7_witness :
    parseElement ⟨"number", some "12345", [], []⟩ = .ok (.P [.ButtonGroup
      [.Button "Number" false none, .Button "12345" true (some "tel:12345")]]) ∧
    parseElement ⟨"email", some "a@b.se", [], []⟩ = .ok (.P [.ButtonGroup
      [.Button "Email" false none, .Button "a@b.se" true (some "mailto:a@b.se")]]) ∧
    parseElement ⟨"address", some "Street 1", [], []⟩ = .ok (.P [.ButtonGroup
      [.Button "Address" false none, .Button "Street 1" true none]]) :=
  ⟨(claim7_contact ⟨"number", some "12345", [], []⟩ "12345" rfl).1 rfl,
   (claim7_contact ⟨"email", some "a@b.se", [], []⟩ "a@b.se" rfl).2.1 rfl,
   (claim7_contact ⟨"address", some "Street 1", [], []⟩ "Street 1" rfl).2.2 rfl⟩

/-- Claim C9 (implicit): every leaf content handler requires non-absent
text — rendering any leaf element whose text is `None` fails with an error
instead of producing output. -/
theorem claim9_missing_text (e : Element) (h : e.text = none)
    (ht : e.tag ∈ (["text", "time", "date", "head", "subhead", "tag", "link",
      "progress", "image", "number", "email", "address"] : List String)) :
    ∃ msg, parseElement e = .error msg := by
  have hc : getContent e
      = .error "AttributeError: NoneType object has no attribute strip" := by
    unfold getContent
    rw [h]
  simp only [List.mem_cons, List.not_mem_nil, or_false] at ht
  rcases ht with h1 | h1 | h1 | h1 | h1 | h1 | h1 | h1 | h1 | h1 | h1 | h1
  all_goals refine ⟨"AttributeError: NoneType object has no attribute strip", ?_⟩
  all_goals rw [parseElement, runParser.eq_def]
  all_goals unfold getElementParser
  all_goals rw [h1]
  all_goals rw [contactParse, contactParse, contactParse]
  all_goals rw [hc]
  all_goals rfl

/-- Witness for C9: a text element with no text node fails. -/
theorem claim9_witness : ∃ msg, parseElement ⟨"text", none, [], []⟩ = .error msg :=
  claim9_missing_text ⟨"text", none, [], []⟩ rfl (by decide)
